import Mathlib

/-!
Verification of the vss2svn `ssphys` record/object model against its
natural-language specification.  The source files embedded here are
`SSPhysLib/SSRecord.h`, `SSPhysLib/SSTypes.cpp`,
`SSPhysLib/SSBranchFileObject.h` and `SSPhys/ValidateCommand.cpp`.
Bodies that live in compilation units outside those files
(`SSFiles.cpp`, `SSRecord.cpp`, `SSObject.cpp`, `SSBranchFileObject.cpp`,
`SSTypes.h`) are modelled from the specification; each such definition
carries a doc comment starting `Modelled from the spec:`.
-/

/-- The `eType` enumeration from `SSRecord.h` lines 17-32: one semantic
record kind per known two-character tag, plus `eNone` and `eUnknown`. -/
inductive eType where
  | eNone
  | eItemRecord      -- DH
  | eHistoryRecord   -- EL
  | eCommentRecord   -- MC
  | eCheckOutRecord  -- CF
  | eParentFolder    -- PF
  | eFileDelta       -- FD
  | eNamesCache      -- HN
  | eNameCacheEntry  -- SN
  | eProjectEntry    -- JP
  | eUsersHeader     -- HU
  | eUser            -- UU
  | eBranchFile      -- BF
  | eUnknown
  deriving DecidableEq, Repr

/-- The global action-label table `g_szActions` from `SSTypes.cpp`
lines 9-40, transcribed entry for entry in array order. -/
def g_szActions : List String := [
  "Labeled",            -- = 0
  "Created Project",    -- = 1
  "Added Project",      -- = 2
  "Added File",         -- = 3
  "Destroyed Project",  -- = 4
  "Destroyed File",     -- = 5
  "Deleted Project",    -- = 6
  "Deleted File",       -- = 7
  "Recovered Project",  -- = 8
  "Recovered File",     -- = 9
  "Renamed Project",    -- = 10
  "Renamed File",       -- = 11
  "Moved Project From", -- = 12
  "Moved Project To",   -- = 13
  "Shared File",        -- = 14
  "Branch File",        -- = 15
  "Created File",       -- = 16
  "Checked In",         -- = 17
  "Action 18",          -- missing action 18
  "RollBack",           -- = 19
  "Archive Versions of File",  -- = 20
  "Action 19",          -- missing action 19
  "Archive File",       -- = 22
  "Archive Project",    -- = 23
  "Restored File",      -- = 24
  "Restored Project",   -- = 25
  "Pinned File",        -- = 26 (pseudo action)
  "Unpinned File"]      -- = 27 (pseudo action)

/-- The C++ conversion of a (32-bit) signed `int` value to the unsigned
64-bit `size_t` produced by `countof`, as performed implicitly by the
comparison `e < countof (g_szActions)` in `SSTypes.cpp` line 44. -/
def intToSizeT (e : Int) : Nat := (e % (2 : Int) ^ 64).toNat

/-- `CAction::ActionToString` from `SSTypes.cpp` lines 42-47: the
comparison `e < countof (g_szActions)` promotes `e` to `size_t`, so a
negative code compares as a huge unsigned value and falls through to
`"unknown"`. -/
def CAction.ActionToString (e : Int) : String :=
  if intToSizeT e < g_szActions.length then
    g_szActions.getD (intToSizeT e) "unknown"
  else
    "unknown"

/-- Modelled from the spec: `SSRecord::StringToType` (declared at
`SSRecord.h` line 43, body in `SSRecord.cpp`, not in src/) — the fixed
tag table of §4.2: DH→Item, EL→History, MC→Comment, CF→CheckOut,
PF→ParentFolder, FD→FileDelta, HN→NamesCache, SN→NameCacheEntry,
JP→ProjectEntry, HU→UsersHeader, UU→User, BF→BranchFile, anything
else → Unknown. -/
def SSRecord.StringToType (t : Char × Char) : eType :=
  if t = ('D', 'H') then eType.eItemRecord
  else if t = ('E', 'L') then eType.eHistoryRecord
  else if t = ('M', 'C') then eType.eCommentRecord
  else if t = ('C', 'F') then eType.eCheckOutRecord
  else if t = ('P', 'F') then eType.eParentFolder
  else if t = ('F', 'D') then eType.eFileDelta
  else if t = ('H', 'N') then eType.eNamesCache
  else if t = ('S', 'N') then eType.eNameCacheEntry
  else if t = ('J', 'P') then eType.eProjectEntry
  else if t = ('H', 'U') then eType.eUsersHeader
  else if t = ('U', 'U') then eType.eUser
  else if t = ('B', 'F') then eType.eBranchFile
  else eType.eUnknown

/-- The list of registered two-character tags of the §4.2 table. -/
def knownTags : List (Char × Char) :=
  [('D', 'H'), ('E', 'L'), ('M', 'C'), ('C', 'F'), ('P', 'F'), ('F', 'D'),
   ('H', 'N'), ('S', 'N'), ('J', 'P'), ('H', 'U'), ('U', 'U'), ('B', 'F')]

/-- Modelled from the spec: the size in bytes of `RECORD_HEADER`
(`SSTypes.h`, not in src/) — §3 describes the header as a length field
giving the payload size (a `ulong32`, 4 bytes, the integer width used
for offsets elsewhere in the source) followed by a 2-byte ASCII type
tag.  This is the `sizeof(m_Header)` of `SSRecord.h` line 52. -/
def sizeofRecordHeader : Nat := 6

/-- Little-endian 4-byte encoding of a `ulong32` value. -/
def toLE4 (n : Nat) : List Nat :=
  [n % 256, n / 256 % 256, n / 256 ^ 2 % 256, n / 256 ^ 3 % 256]

/-- Little-endian 4-byte decoding of a `ulong32` value; any other shape
decodes to 0. -/
def fromLE4 (bs : List Nat) : Nat :=
  match bs with
  | [a, b, c, d] => a + 256 * (b + 256 * (c + 256 * d))
  | _ => 0

/-- Modelled from the spec: `RECORD_HEADER` (`SSTypes.h`, not in src/) —
§3: a fixed-size prefix holding a 2-byte ASCII type tag and a length
field giving the payload size in bytes. -/
structure RECORD_HEADER where
  size : Nat
  type : Char × Char
  deriving DecidableEq, Repr

/-- The `SSRecord` class of `SSRecord.h` lines 34-66: header, payload
buffer, payload length and byte offset of the header in the file. -/
structure SSRecord where
  m_Header : RECORD_HEADER
  m_pBuffer : List Nat
  m_Len : Nat
  m_Offset : Nat
  deriving DecidableEq, Repr

/-- `SSRecord::GetLen` (`SSRecord.h` line 50). -/
def SSRecord.GetLen (r : SSRecord) : Nat := r.m_Len

/-- `SSRecord::GetOffset` (`SSRecord.h` line 51). -/
def SSRecord.GetOffset (r : SSRecord) : Nat := r.m_Offset

/-- `SSRecord::GetNextOffset` (`SSRecord.h` line 52):
`m_Offset + m_Len + sizeof(m_Header)`. -/
def SSRecord.GetNextOffset (r : SSRecord) : Nat :=
  r.m_Offset + r.m_Len + sizeofRecordHeader

/-- `SSRecord::GetBuffer` (`SSRecord.h` lines 48-49). -/
def SSRecord.GetBuffer (r : SSRecord) : List Nat := r.m_pBuffer

/-- `SSRecord::GetRecordType` (`SSRecord.h` line 53):
`std::string (m_Header.type, 2)` — exactly the two raw tag characters
of the header, whether or not the tag is registered. -/
def SSRecord.GetRecordType (r : SSRecord) : String :=
  String.mk [r.m_Header.type.1, r.m_Header.type.2]

/-- `SSRecord::GetType` (`SSRecord.h` line 54, body in `SSRecord.cpp`):
classification of the header tag through the §4.2 table. -/
def SSRecord.GetType (r : SSRecord) : eType :=
  SSRecord.StringToType r.m_Header.type

/-- Modelled from the spec: reading a `RECORD_HEADER` at a byte offset
(`SSFiles.cpp`, not in src/) — §4.1: if fewer than header-size bytes
remain the read fails (clean EOF), otherwise the length field and the
two tag bytes are decoded. -/
def readHeaderAt (file : List Nat) (off : Nat) : Option RECORD_HEADER :=
  if off + sizeofRecordHeader ≤ file.length then
    let bs := (file.drop off).take sizeofRecordHeader
    some { size := fromLE4 (bs.take 4),
           type := (Char.ofNat (bs.getD 4 0), Char.ofNat (bs.getD 5 0)) }
  else
    none

/-- The scan error of §7: a header declared more payload bytes than
remain in the file; carries the offending record's offset. -/
inductive ScanError where
  | TruncatedRecord (offset : Nat)
  deriving DecidableEq, Repr

theorem readHeaderAt_some_le {file : List Nat} {off : Nat} {hdr : RECORD_HEADER}
    (h : readHeaderAt file off = some hdr) :
    off + sizeofRecordHeader ≤ file.length := by
  unfold readHeaderAt at h
  by_cases hc : off + sizeofRecordHeader ≤ file.length
  · exact hc
  · simp [hc] at h

/-- Modelled from the spec: `RecordReader.scan` (`SSFiles.cpp`, not in
src/) — §4.1: read a header at the current offset; if fewer than
header-size bytes remain, the sequence ends cleanly; if the declared
payload length exceeds the remaining bytes, fail with `TruncatedRecord`
carrying the offset; otherwise materialize the record and advance to
`nextOffset = offset + length + headerSize`. -/
def scanFrom (file : List Nat) (off : Nat) : Except ScanError (List SSRecord) :=
  match h : readHeaderAt file off with
  | none => Except.ok []
  | some hdr =>
    if off + sizeofRecordHeader + hdr.size ≤ file.length then
      let payload := (file.drop (off + sizeofRecordHeader)).take hdr.size
      match scanFrom file (off + sizeofRecordHeader + hdr.size) with
      | Except.ok rest =>
          Except.ok ({ m_Header := hdr, m_pBuffer := payload,
                       m_Len := hdr.size, m_Offset := off } :: rest)
      | Except.error e => Except.error e
    else
      Except.error (ScanError.TruncatedRecord off)
termination_by file.length - off
decreasing_by
  have hle := readHeaderAt_some_le h
  have h6 : 0 < sizeofRecordHeader := by decide
  omega

/-- A synthetic well-formed file: the byte encoding of one record with a
correct header (§3): 4-byte little-endian length, the two tag bytes,
then the payload. -/
def encodeRecord (tag : Char × Char) (payload : List Nat) : List Nat :=
  toLE4 payload.length ++ [tag.1.toNat, tag.2.toNat] ++ payload

/-- Concatenation of encoded records into a synthetic file. -/
def encodeFile (rs : List ((Char × Char) × List Nat)) : List Nat :=
  (rs.map fun r => encodeRecord r.1 r.2).flatten

/-- The record values a correct scan of `encodeFile rs` starting at byte
offset `base` must produce, by the constructed layout. -/
def expectedRecords (base : Nat) :
    List ((Char × Char) × List Nat) → List SSRecord
  | [] => []
  | (tag, payload) :: rest =>
      { m_Header := { size := payload.length, type := tag },
        m_pBuffer := payload, m_Len := payload.length, m_Offset := base } ::
      expectedRecords (base + sizeofRecordHeader + payload.length) rest

theorem fromLE4_toLE4 {n : Nat} (h : n < 2 ^ 32) : fromLE4 (toLE4 n) = n := by
  simp only [toLE4, fromLE4]
  omega

theorem encodeRecord_length (t : Char × Char) (p : List Nat) :
    (encodeRecord t p).length = sizeofRecordHeader + p.length := by
  simp [encodeRecord, toLE4, sizeofRecordHeader]
  omega

theorem encodeFile_nil : encodeFile [] = [] := rfl

theorem encodeFile_cons (t : Char × Char) (p : List Nat)
    (rest : List ((Char × Char) × List Nat)) :
    encodeFile ((t, p) :: rest) = encodeRecord t p ++ encodeFile rest := by
  simp [encodeFile]

theorem scanFrom_eof {file : List Nat} {off : Nat}
    (h : readHeaderAt file off = none) : scanFrom file off = Except.ok [] := by
  rw [scanFrom.eq_def]
  split
  · rfl
  · rename_i hdr hsome
    rw [h] at hsome
    cases hsome

theorem scanFrom_truncated {file : List Nat} {off : Nat} {hdr : RECORD_HEADER}
    (h : readHeaderAt file off = some hdr)
    (h2 : ¬ off + sizeofRecordHeader + hdr.size ≤ file.length) :
    scanFrom file off = Except.error (ScanError.TruncatedRecord off) := by
  rw [scanFrom.eq_def]
  split
  · rename_i hnone
    rw [h] at hnone
    cases hnone
  · rename_i hdr2 hsome
    rw [h] at hsome
    injection hsome with he
    subst he
    rw [if_neg h2]

theorem scanFrom_some {file : List Nat} {off : Nat} {hdr : RECORD_HEADER}
    (h : readHeaderAt file off = some hdr)
    (h2 : off + sizeofRecordHeader + hdr.size ≤ file.length) :
    scanFrom file off =
      match scanFrom file (off + sizeofRecordHeader + hdr.size) with
      | Except.ok rest =>
          Except.ok ({ m_Header := hdr,
                       m_pBuffer := (file.drop (off + sizeofRecordHeader)).take hdr.size,
                       m_Len := hdr.size, m_Offset := off } :: rest)
      | Except.error e => Except.error e := by
  rw [scanFrom.eq_def]
  split
  · rename_i hnone
    rw [h] at hnone
    cases hnone
  · rename_i hdr2 hsome
    rw [h] at hsome
    injection hsome with he
    subst he
    rw [if_pos h2]

theorem readHeaderAt_encoded (pre : List Nat) (t : Char × Char) (p : List Nat)
    (tail : List Nat) (hlen : p.length < 2 ^ 32) :
    readHeaderAt (pre ++ (encodeRecord t p ++ tail)) pre.length =
      some { size := p.length, type := t } := by
  have hc : pre.length + sizeofRecordHeader ≤
      (pre ++ (encodeRecord t p ++ tail)).length := by
    simp [sizeofRecordHeader, encodeRecord, toLE4]
  unfold readHeaderAt
  rw [if_pos hc, List.drop_left]
  simp only [encodeRecord, toLE4, List.cons_append, List.nil_append,
    List.append_assoc, sizeofRecordHeader, List.take, fromLE4, List.getD,
    List.get?, Option.some.injEq, RECORD_HEADER.mk.injEq]
  refine ⟨by omega, ?_⟩
  simp only [Option.getD_some]
  rw [Char.ofNat_toNat, Char.ofNat_toNat]

theorem drop_encoded_payload (pre : List Nat) (t : Char × Char) (p : List Nat)
    (tail : List Nat) :
    ((pre ++ (encodeRecord t p ++ tail)).drop
        (pre.length + sizeofRecordHeader)).take p.length = p := by
  have h1 : (pre ++ (encodeRecord t p ++ tail)).drop (pre.length + sizeofRecordHeader)
      = ((pre ++ (encodeRecord t p ++ tail)).drop pre.length).drop sizeofRecordHeader := by
    rw [List.drop_drop]
  rw [h1, List.drop_left]
  have h2 : (encodeRecord t p ++ tail).drop sizeofRecordHeader = p ++ tail := by
    simp [encodeRecord, toLE4, sizeofRecordHeader]
  rw [h2, List.take_left]

/-- Well-formedness of a synthetic record list: ASCII tag bytes, byte
payloads, and payload lengths representable in the 4-byte length field. -/
def wellFormedInput (rs : List ((Char × Char) × List Nat)) : Prop :=
  ∀ r ∈ rs, r.1.1.toNat < 256 ∧ r.1.2.toNat < 256 ∧
    (∀ b ∈ r.2, b < 256) ∧ r.2.length < 2 ^ 32

instance (rs : List ((Char × Char) × List Nat)) :
    Decidable (wellFormedInput rs) := by
  unfold wellFormedInput
  infer_instance

theorem scanFrom_encodeFile (rs : List ((Char × Char) × List Nat))
    (pre : List Nat) (hw : wellFormedInput rs) :
    scanFrom (pre ++ encodeFile rs) pre.length =
      Except.ok (expectedRecords pre.length rs) := by
  induction rs generalizing pre with
  | nil =>
    rw [encodeFile_nil, List.append_nil]
    rw [expectedRecords]
    apply scanFrom_eof
    unfold readHeaderAt
    rw [if_neg]
    simp [sizeofRecordHeader]
  | cons hd rest ih =>
    obtain ⟨t, p⟩ := hd
    have hw1 := hw (t, p) (List.mem_cons_self _ _)
    have hwr : wellFormedInput rest := fun r hr => hw r (List.mem_cons_of_mem _ hr)
    rw [encodeFile_cons]
    have hhdr := readHeaderAt_encoded pre t p (encodeFile rest) hw1.2.2.2
    have hlen : (pre ++ (encodeRecord t p ++ encodeFile rest)).length
        = pre.length + sizeofRecordHeader + p.length + (encodeFile rest).length := by
      simp [encodeRecord_length]
      omega
    have h2 : pre.length + sizeofRecordHeader + p.length ≤
        (pre ++ (encodeRecord t p ++ encodeFile rest)).length := by
      rw [hlen]
      omega
    rw [scanFrom_some hhdr h2]
    have hrec : scanFrom (pre ++ (encodeRecord t p ++ encodeFile rest))
        (pre.length + sizeofRecordHeader + (RECORD_HEADER.mk p.length t).size) =
        Except.ok (expectedRecords (pre.length + sizeofRecordHeader + p.length) rest) := by
      have hpre : (pre ++ encodeRecord t p).length
          = pre.length + sizeofRecordHeader + p.length := by
        simp [encodeRecord_length]
        omega
      have := ih (pre ++ encodeRecord t p) hwr
      rw [hpre] at this
      rw [← List.append_assoc]
      exact this
    rw [hrec]
    rw [drop_encoded_payload pre t p (encodeFile rest)]
    rw [expectedRecords]

/-- The byte offset at which the `i`-th record of the constructed layout
begins (and, at `i = N`, the end of the last record). -/
def layoutOffset (rs : List ((Char × Char) × List Nat)) (i : Nat) : Nat :=
  ((rs.take i).map fun r => sizeofRecordHeader + r.2.length).sum

theorem expectedRecords_length (base : Nat)
    (rs : List ((Char × Char) × List Nat)) :
    (expectedRecords base rs).length = rs.length := by
  induction rs generalizing base with
  | nil => rw [expectedRecords]; rfl
  | cons hd rest ih =>
    obtain ⟨t, p⟩ := hd
    rw [expectedRecords]
    simp [ih]

theorem expectedRecords_get (rs : List ((Char × Char) × List Nat))
    (base : Nat) (i : Nat) (hi : i < (expectedRecords base rs).length) :
    ((expectedRecords base rs).get ⟨i, hi⟩).GetOffset = base + layoutOffset rs i ∧
    ((expectedRecords base rs).get ⟨i, hi⟩).GetNextOffset
      = base + layoutOffset rs (i + 1) := by
  induction rs generalizing base i with
  | nil =>
    rw [expectedRecords] at hi
    cases hi
  | cons hd rest ih =>
    obtain ⟨t, p⟩ := hd
    cases i with
    | zero =>
      constructor
      · simp [expectedRecords, layoutOffset, SSRecord.GetOffset]
      · simp [expectedRecords, layoutOffset, SSRecord.GetNextOffset]
        omega
    | succ j =>
      have hj : j < (expectedRecords (base + sizeofRecordHeader + p.length) rest).length := by
        rw [expectedRecords] at hi
        simpa using hi
      have := ih (base + sizeofRecordHeader + p.length) j hj
      have hstep : ∀ k, layoutOffset ((t, p) :: rest) (k + 1)
          = sizeofRecordHeader + p.length + layoutOffset rest k := by
        intro k
        simp [layoutOffset]
      have hgo : ((expectedRecords base ((t, p) :: rest)).get ⟨j + 1, hi⟩)
          = ((expectedRecords (base + sizeofRecordHeader + p.length) rest).get ⟨j, hj⟩) :=
        rfl
      constructor
      · rw [hgo, this.1, hstep]
        omega
      · rw [hgo, this.2, hstep]
        omega

/-- Modelled from the spec: the size in bytes of the on-disk `BF` struct
(`SSTypes.h`, not in src/) — §3: the BranchFile payload holds
`previousOffset` (a `ulong32`, payload bytes 0-3) followed by the
NUL-terminated name `branchToPhys` of the branched-to physical file
(bytes 4-12). -/
def sizeofBF : Nat := 13

/-- The payload byte positions that the `SSBranchFileObject` accessors
of `SSBranchFileObject.h` lines 20-21 dereference through `GetData ()`:
every byte of the fixed `BF` layout. -/
def bfReadIndices : List Nat := List.range sizeofBF

/-- The `SSBranchFileObject` of `SSBranchFileObject.h` lines 14-31: a
LogicalObject holding a shared reference to its source record, with the
spec's §4.3 `invalid` marker for payloads shorter than the fixed
layout. -/
structure SSBranchFileObject where
  m_pRecord : SSRecord
  invalid : Bool
  deriving DecidableEq, Repr

/-- Modelled from the spec: construction of an `SSBranchFileObject`
(`SSBranchFileObject.cpp` and `SSObject.cpp`, not in src/) — §4.3: for
known kinds whose payload is too short for the expected fixed layout,
the object is marked `invalid` rather than decoded from out-of-bounds
bytes. -/
def SSBranchFileObject.build (r : SSRecord) : SSBranchFileObject :=
  { m_pRecord := r, invalid := decide (r.GetLen < sizeofBF) }

/-- `SSObject::GetData` as used by `SSBranchFileObject.h` line 26: the
record's payload buffer viewed as the `BF` struct. -/
def SSBranchFileObject.GetData (o : SSBranchFileObject) : List Nat :=
  o.m_pRecord.GetBuffer

/-- `SSBranchFileObject::GetPreviousOffset` (`SSBranchFileObject.h` line
20): the `previousOffset` field, payload bytes 0-3. -/
def SSBranchFileObject.GetPreviousOffset (o : SSBranchFileObject) : Nat :=
  fromLE4 (o.GetData.take 4)

/-- `SSBranchFileObject::GetBranchToPhys` (`SSBranchFileObject.h` line
21): the NUL-terminated `branchToPhys` field, payload bytes 4-12. -/
def SSBranchFileObject.GetBranchToPhys (o : SSBranchFileObject) : String :=
  String.mk ((((o.GetData.drop 4).take 9).takeWhile (fun b => b ≠ 0)).map Char.ofNat)

/-- Modelled from the spec: reading the single record at a byte offset
(`SSFiles.cpp`, not in src/) — §4.4: re-read the record at the given
offset; fail if the offset is out of bounds or the declared payload
exceeds the file. -/
def getRecordAt (file : List Nat) (off : Nat) : Option SSRecord :=
  match readHeaderAt file off with
  | none => none
  | some hdr =>
    if off + sizeofRecordHeader + hdr.size ≤ file.length then
      some { m_Header := hdr,
             m_pBuffer := (file.drop (off + sizeofRecordHeader)).take hdr.size,
             m_Len := hdr.size, m_Offset := off }
    else
      none

/-- Modelled from the spec: `SSBranchFileObject::GetPrevious` (declared
at `SSBranchFileObject.h` line 23, body in `SSBranchFileObject.cpp`, not
in src/) — §4.4: resolve `previousOffset` within the same physical
file, require a BranchFile record there, and rebuild its object; fail
with a broken chain otherwise. -/
def SSBranchFileObject.GetPrevious (file : List Nat) (o : SSBranchFileObject) :
    Option SSBranchFileObject :=
  match getRecordAt file o.GetPreviousOffset with
  | none => none
  | some r =>
    if r.GetType = eType.eBranchFile then some (SSBranchFileObject.build r)
    else none

/-- The typed top-level error of §7 raised when a path does not resolve
to a recognized physical-file layout. -/
inductive CommandError where
  | FileNotRecognized
  deriving DecidableEq, Repr

/-- A Validator finding of §4.5: a problem kind tied to a byte offset. -/
inductive Finding where
  | UnknownRecordKind (tag : Char × Char) (offset : Nat)
  | Truncated (offset : Nat)
  deriving DecidableEq, Repr

/-- The physical record file resolved by `SSRecordFile::MakeFile`. -/
structure SSRecordFile where
  bytes : List Nat
  deriving DecidableEq, Repr

/-- Modelled from the spec: `SSRecordFile::Validate` (`SSFiles.cpp`, not
in src/) — §4.5: walk every record in file order, accumulate findings
(unknown tags, truncation) instead of stopping at the first problem. -/
def SSRecordFile.Validate (f : SSRecordFile) : List Finding :=
  match scanFrom f.bytes 0 with
  | Except.ok rs =>
      (rs.filter (fun r => r.GetType = eType.eUnknown)).map
        (fun r => Finding.UnknownRecordKind r.m_Header.type r.m_Offset)
  | Except.error (ScanError.TruncatedRecord off) => [Finding.Truncated off]

/-- Modelled from the spec: `SSRecordFile::MakeFile` (`SSFiles.cpp`, not
in src/) — §6/§7: resolve a path to a physical-file object, failing
with the typed `FileNotRecognized` error when the path cannot be opened
or its very first header is unreadable.  The filesystem is abstracted as
a partial map from paths to byte contents. -/
def SSRecordFile.MakeFile (fs : String → Option (List Nat)) (path : String) :
    Except CommandError (Option SSRecordFile) :=
  match fs path with
  | none => Except.error CommandError.FileNotRecognized
  | some bytes =>
    match readHeaderAt bytes 0 with
    | none => Except.error CommandError.FileNotRecognized
    | some _ => Except.ok (some { bytes := bytes })

/-- `CValidateCommand::Execute` (`ValidateCommand.cpp` lines 19-26):
make the file object and, when the returned pointer is non-null,
validate it; a typed error raised by `MakeFile` propagates to the
caller. -/
def CValidateCommand.Execute (fs : String → Option (List Nat))
    (arg : String) : Except CommandError (Option (List Finding)) :=
  match SSRecordFile.MakeFile fs arg with
  | Except.error e => Except.error e
  | Except.ok none => Except.ok none
  | Except.ok (some f) => Except.ok (some f.Validate)

/-- State-passing form of `SSRecord::GetBuffer` (`SSRecord.h` lines
48-49): the operation's result together with the record it leaves
behind.  The body only returns `m_pBuffer`; it assigns no member. -/
def SSRecord.GetBufferOp (r : SSRecord) : List Nat × SSRecord := (r.m_pBuffer, r)

/-- State-passing form of `SSRecord::GetLen` (`SSRecord.h` line 50). -/
def SSRecord.GetLenOp (r : SSRecord) : Nat × SSRecord := (r.m_Len, r)

/-- State-passing form of `SSRecord::GetOffset` (`SSRecord.h` line 51). -/
def SSRecord.GetOffsetOp (r : SSRecord) : Nat × SSRecord := (r.m_Offset, r)

/-- State-passing form of `SSRecord::GetNextOffset` (`SSRecord.h` line
52). -/
def SSRecord.GetNextOffsetOp (r : SSRecord) : Nat × SSRecord :=
  (r.m_Offset + r.m_Len + sizeofRecordHeader, r)

/-- State-passing form of `SSRecord::GetRecordType` (`SSRecord.h` line
53). -/
def SSRecord.GetRecordTypeOp (r : SSRecord) : String × SSRecord :=
  (String.mk [r.m_Header.type.1, r.m_Header.type.2], r)

/-- State-passing form of `SSRecord::GetType` (`SSRecord.h` line 54). -/
def SSRecord.GetTypeOp (r : SSRecord) : eType × SSRecord :=
  (SSRecord.StringToType r.m_Header.type, r)

/-- State-passing form of `SSBranchFileObject::GetPreviousOffset`
(`SSBranchFileObject.h` line 20) viewed as an operation on the source
record. -/
def SSRecord.GetPreviousOffsetOp (r : SSRecord) : Nat × SSRecord :=
  (fromLE4 (r.m_pBuffer.take 4), r)

/-- Modelled from the spec: state-passing form of the §4.5 Dumper
consumer (`SSRecord::Dump`, `SSRecord.cpp`, not in src/): one
human-readable line per record — kind label, offset — read-only. -/
def SSRecord.DumpOp (r : SSRecord) : String × SSRecord :=
  (r.GetRecordType ++ " at " ++ toString r.m_Offset, r)

/-- Modelled from the spec: state-passing form of the §4.5 XmlExporter
consumer (`SSObject::ToXml`, not in src/): an output node per record
mirroring the decoded fields — read-only. -/
def SSRecord.ToXmlOp (r : SSRecord) : (String × List Nat) × SSRecord :=
  ((r.GetRecordType, r.m_pBuffer), r)

/-- Modelled from the spec: state-passing form of the §4.5 Validator
consumer visiting one record (`SSFiles.cpp`, not in src/): an
unknown-tag finding when the kind is `Unknown`, none otherwise —
read-only. -/
def SSRecord.ValidateVisitOp (r : SSRecord) : List Finding × SSRecord :=
  (if r.GetType = eType.eUnknown
     then [Finding.UnknownRecordKind r.m_Header.type r.m_Offset]
     else [],
   r)

/-- C1: scanning a well-formed synthetic file built by concatenating N
records with correct header/length fields yields exactly N records whose
`GetOffset`/`GetNextOffset` match the constructed layout, and for every
record `GetNextOffset () = GetOffset () + GetLen () + sizeof(m_Header)`
(`SSRecord.h` line 52). -/
theorem scan_wellformed_yields_layout (rs : List ((Char × Char) × List Nat))
    (hw : wellFormedInput rs) :
    ∃ out, scanFrom (encodeFile rs) 0 = Except.ok out ∧
      out.length = rs.length ∧
      (∀ i (hi : i < out.length),
        (out.get ⟨i, hi⟩).GetOffset = layoutOffset rs i ∧
        (out.get ⟨i, hi⟩).GetNextOffset = layoutOffset rs (i + 1)) ∧
      (∀ r : SSRecord,
        r.GetNextOffset = r.GetOffset + r.GetLen + sizeofRecordHeader) := by
  refine ⟨expectedRecords 0 rs, ?_, expectedRecords_length 0 rs, ?_, fun r => rfl⟩
  · have h := scanFrom_encodeFile rs [] hw
    simpa using h
  · intro i hi
    have h := expectedRecords_get rs 0 i hi
    simpa using h

/-- Concrete two-record input for the C1 witness. -/
def wInput : List ((Char × Char) × List Nat) :=
  [(('B', 'F'), [0, 0, 0, 0, 1]), (('Z', 'Z'), [7, 8])]

theorem scan_wellformed_yields_layout_witness :
    wellFormedInput wInput ∧
    (∃ out, scanFrom (encodeFile wInput) 0 = Except.ok out ∧
      out.length = wInput.length ∧
      (∀ i (hi : i < out.length),
        (out.get ⟨i, hi⟩).GetOffset = layoutOffset wInput i ∧
        (out.get ⟨i, hi⟩).GetNextOffset = layoutOffset wInput (i + 1)) ∧
      (∀ r : SSRecord,
        r.GetNextOffset = r.GetOffset + r.GetLen + sizeofRecordHeader)) :=
  ⟨by decide, scan_wellformed_yields_layout wInput (by decide)⟩

/-- C2: `StringToType` gives every registered tag its listed kind and
every unregistered two-character tag `eUnknown`; being a total Lean
function, it yields a defined kind on every input and raises no error. -/
theorem stringToType_table_and_default :
    (∀ t : Char × Char, t ∉ knownTags →
      SSRecord.StringToType t = eType.eUnknown) ∧
    SSRecord.StringToType ('D', 'H') = eType.eItemRecord ∧
    SSRecord.StringToType ('E', 'L') = eType.eHistoryRecord ∧
    SSRecord.StringToType ('M', 'C') = eType.eCommentRecord ∧
    SSRecord.StringToType ('C', 'F') = eType.eCheckOutRecord ∧
    SSRecord.StringToType ('P', 'F') = eType.eParentFolder ∧
    SSRecord.StringToType ('F', 'D') = eType.eFileDelta ∧
    SSRecord.StringToType ('H', 'N') = eType.eNamesCache ∧
    SSRecord.StringToType ('S', 'N') = eType.eNameCacheEntry ∧
    SSRecord.StringToType ('J', 'P') = eType.eProjectEntry ∧
    SSRecord.StringToType ('H', 'U') = eType.eUsersHeader ∧
    SSRecord.StringToType ('U', 'U') = eType.eUser ∧
    SSRecord.StringToType ('B', 'F') = eType.eBranchFile := by
  refine ⟨?_, by decide, by decide, by decide, by decide, by decide, by decide,
    by decide, by decide, by decide, by decide, by decide, by decide⟩
  intro t ht
  simp only [knownTags, List.mem_cons, List.not_mem_nil, or_false] at ht
  push_neg at ht
  obtain ⟨h1, h2, h3, h4, h5, h6, h7, h8, h9, h10, h11, h12⟩ := ht
  simp only [SSRecord.StringToType, if_neg h1, if_neg h2, if_neg h3, if_neg h4,
    if_neg h5, if_neg h6, if_neg h7, if_neg h8, if_neg h9, if_neg h10,
    if_neg h11, if_neg h12]

theorem stringToType_table_and_default_witness :
    SSRecord.StringToType ('Z', 'Z') = eType.eUnknown :=
  stringToType_table_and_default.1 ('Z', 'Z') (by decide)

/-- C3: over the 32-bit signed `int` domain, `ActionToString` yields a
defined (non-empty) label for every code, and yields `"unknown"` for
every out-of-range code — negative (promoted to a huge `size_t` by the
comparison on `SSTypes.cpp` line 44) or greater than 27. -/
theorem actionToString_total_and_unknown :
    ∀ e : Int, -2147483648 ≤ e → e < 2147483648 →
      0 < (CAction.ActionToString e).length ∧
      ((e < 0 ∨ 27 < e) → CAction.ActionToString e = "unknown") := by
  intro e h1 h2
  have hpow : (2 : Int) ^ 64 = 18446744073709551616 := by norm_num
  have hglen : g_szActions.length = 28 := rfl
  constructor
  · unfold CAction.ActionToString
    split
    · rename_i hlt
      have hall : ∀ u < g_szActions.length,
          0 < (g_szActions.getD u "unknown").length := by decide
      exact hall _ hlt
    · decide
  · intro hor
    have hn : ¬ intToSizeT e < g_szActions.length := by
      rw [hglen]
      unfold intToSizeT
      rw [hpow]
      omega
    unfold CAction.ActionToString
    rw [if_neg hn]

theorem actionToString_total_and_unknown_witness :
    CAction.ActionToString (-1) = "unknown" ∧
    0 < (CAction.ActionToString 5).length :=
  ⟨(actionToString_total_and_unknown (-1) (by decide) (by decide)).2
      (Or.inl (by decide)),
   (actionToString_total_and_unknown 5 (by decide) (by decide)).1⟩

/-- C4 counterexample: the claim maps gap code 19 to the placeholder
`"Action 19"`, but `g_szActions` assigns `"RollBack"` to code 19
(`SSTypes.cpp` line 29); the `"Action 19"` placeholder sits at code 21. -/
theorem actionToString_19_is_rollback :
    CAction.ActionToString 19 = "RollBack" ∧
    ¬ CAction.ActionToString 19 = "Action 19" := by
  constructor
  · decide
  · decide

/-- C4 amended: `ActionToString` maps gap code 18 to `"Action 18"` and
gap code 21 to the (mislabelled) placeholder `"Action 19"`; code 19 maps
to `"RollBack"`; the two pseudo-action codes 26 and 27 map to
`"Pinned File"` and `"Unpinned File"`. -/
theorem actionToString_placeholders_and_pseudo :
    CAction.ActionToString 18 = "Action 18" ∧
    CAction.ActionToString 21 = "Action 19" ∧
    CAction.ActionToString 19 = "RollBack" ∧
    CAction.ActionToString 26 = "Pinned File" ∧
    CAction.ActionToString 27 = "Unpinned File" := by
  refine ⟨by decide, by decide, by decide, by decide, by decide⟩

/-- C5: decoding the BranchFile variant's fields stays within the
payload: when the object is not marked invalid, every payload byte
position the `SSBranchFileObject` accessors dereference lies below the
payload length; and a payload shorter than the fixed `BF` layout marks
the object invalid instead of being decoded. -/
theorem bf_decode_within_payload (r : SSRecord)
    (hbuf : r.m_pBuffer.length = r.m_Len) :
    ((SSBranchFileObject.build r).invalid = false →
      ∀ i ∈ bfReadIndices,
        i < (SSBranchFileObject.build r).GetData.length) ∧
    (r.GetLen < sizeofBF → (SSBranchFileObject.build r).invalid = true) := by
  constructor
  · intro hv i hi
    simp only [SSBranchFileObject.build, decide_eq_false_iff_not, not_lt] at hv
    simp only [bfReadIndices, List.mem_range] at hi
    simp only [SSBranchFileObject.GetData, SSBranchFileObject.build,
      SSRecord.GetBuffer]
    unfold SSRecord.GetLen at hv
    omega
  · intro h
    simp only [SSBranchFileObject.build, decide_eq_true_eq]
    exact h

/-- Concrete record with a full-size 13-byte BranchFile payload for the
C5 witness. -/
def wBFRecord : SSRecord :=
  { m_Header := { size := 13, type := ('B', 'F') },
    m_pBuffer := List.replicate 13 0, m_Len := 13, m_Offset := 0 }

theorem bf_decode_within_payload_witness :
    wBFRecord.m_pBuffer.length = wBFRecord.m_Len ∧
    (((SSBranchFileObject.build wBFRecord).invalid = false →
      ∀ i ∈ bfReadIndices,
        i < (SSBranchFileObject.build wBFRecord).GetData.length) ∧
    (wBFRecord.GetLen < sizeofBF →
      (SSBranchFileObject.build wBFRecord).invalid = true)) :=
  ⟨by decide, bf_decode_within_payload wBFRecord (by decide)⟩

/-- C6: at any position of a scan, fewer than header-size remaining
bytes end the record sequence cleanly with no error; and a header whose
declared payload length exceeds the remaining file bytes makes the scan
fail with `TruncatedRecord` carrying that record's offset — the error
result carries no record list, so no partial record is produced. -/
theorem scan_clean_eof_and_truncated :
    (∀ (file : List Nat) (off : Nat),
      file.length < off + sizeofRecordHeader →
      scanFrom file off = Except.ok []) ∧
    (∀ (file : List Nat) (off : Nat) (hdr : RECORD_HEADER),
      readHeaderAt file off = some hdr →
      file.length < off + sizeofRecordHeader + hdr.size →
      scanFrom file off = Except.error (ScanError.TruncatedRecord off)) := by
  constructor
  · intro file off h
    apply scanFrom_eof
    unfold readHeaderAt
    rw [if_neg (by omega)]
  · intro file off hdr hh h
    exact scanFrom_truncated hh (by omega)

/-- Concrete file whose single header declares 100 payload bytes while
only 40 remain, for the C6 witness (the §8 scenario). -/
def wTruncFile : List Nat := [100, 0, 0, 0, 65, 66] ++ List.replicate 40 1

theorem scan_clean_eof_and_truncated_witness :
    scanFrom [1, 2, 3] 0 = Except.ok [] ∧
    scanFrom wTruncFile 0 = Except.error (ScanError.TruncatedRecord 0) :=
  ⟨scan_clean_eof_and_truncated.1 [1, 2, 3] 0 (by decide),
   scan_clean_eof_and_truncated.2 wTruncFile 0
     { size := 100, type := ('A', 'B') } (by decide) (by decide)⟩

/-- C7: a path that does not resolve to a recognized physical-file
layout — it cannot be opened, or its very first header is unreadable —
makes the Validate operation fail with the typed `FileNotRecognized`
error rather than silently succeeding or doing nothing. -/
theorem validate_unrecognized_path_fails (fs : String → Option (List Nat))
    (path : String)
    (h : fs path = none ∨
      ∃ bytes, fs path = some bytes ∧ readHeaderAt bytes 0 = none) :
    CValidateCommand.Execute fs path
      = Except.error CommandError.FileNotRecognized := by
  unfold CValidateCommand.Execute SSRecordFile.MakeFile
  rcases h with h | ⟨bytes, hb, hh⟩
  · rw [h]
  · rw [hb]
    simp only [hh]

theorem validate_unrecognized_path_fails_witness :
    CValidateCommand.Execute (fun _ => none) "a.dat"
      = Except.error CommandError.FileNotRecognized :=
  validate_unrecognized_path_fails (fun _ => none) "a.dat" (Or.inl rfl)

/-- C8: when branch-chain resolution succeeds, the returned object's own
record offset equals the `previousOffset` of the object it was resolved
from. -/
theorem getPrevious_offset_roundtrip (file : List Nat)
    (o p : SSBranchFileObject)
    (h : SSBranchFileObject.GetPrevious file o = some p) :
    p.m_pRecord.GetOffset = o.GetPreviousOffset := by
  unfold SSBranchFileObject.GetPrevious at h
  split at h
  · cases h
  · rename_i r hr
    split at h
    · injection h with he
      subst he
      unfold getRecordAt at hr
      split at hr
      · cases hr
      · rename_i hdr hh
        split at hr
        · injection hr with hre
          subst hre
          rfl
        · cases hr
    · cases h

/-- Concrete one-record chain file and objects for the C8 witness: the
file holds a single BF record at offset 0; the resolving object's
`previousOffset` field decodes to 0. -/
def wChainFile : List Nat := encodeRecord ('B', 'F') (List.replicate 13 0)

def wChainObj : SSBranchFileObject :=
  SSBranchFileObject.build
    { m_Header := { size := 13, type := ('B', 'F') },
      m_pBuffer := List.replicate 13 0, m_Len := 13, m_Offset := 19 }

def wChainPrev : SSBranchFileObject :=
  SSBranchFileObject.build
    { m_Header := { size := 13, type := ('B', 'F') },
      m_pBuffer := List.replicate 13 0, m_Len := 13, m_Offset := 0 }

theorem getPrevious_offset_roundtrip_witness :
    SSBranchFileObject.GetPrevious wChainFile wChainObj = some wChainPrev ∧
    wChainPrev.m_pRecord.GetOffset = wChainObj.GetPreviousOffset :=
  ⟨by decide,
   getPrevious_offset_roundtrip wChainFile wChainObj wChainPrev (by decide)⟩

/-- C9: in state-passing form, every operation the record offers and
every consumer visit — the `SSRecord.h` accessors (lines 48-54), the
BranchFile field accessor, Dumper, XmlExporter, Validator — returns the
record it was given unchanged: none assigns to the header, payload
buffer, offset or length. -/
theorem record_operations_leave_record_unchanged (r : SSRecord) :
    (SSRecord.GetBufferOp r).2 = r ∧ (SSRecord.GetLenOp r).2 = r ∧
    (SSRecord.GetOffsetOp r).2 = r ∧ (SSRecord.GetNextOffsetOp r).2 = r ∧
    (SSRecord.GetRecordTypeOp r).2 = r ∧ (SSRecord.GetTypeOp r).2 = r ∧
    (SSRecord.GetPreviousOffsetOp r).2 = r ∧ (SSRecord.DumpOp r).2 = r ∧
    (SSRecord.ToXmlOp r).2 = r ∧ (SSRecord.ValidateVisitOp r).2 = r :=
  ⟨rfl, rfl, rfl, rfl, rfl, rfl, rfl, rfl, rfl, rfl⟩

/-- C10: `GetRecordType` returns a string of exactly the two raw tag
characters stored in the record header, whether or not the tag is
registered, so Unknown records keep their original tag at the public
interface. -/
theorem getRecordType_raw_two_chars (r : SSRecord) :
    (r.GetRecordType).length = 2 ∧
    (r.GetRecordType).data = [r.m_Header.type.1, r.m_Header.type.2] :=
  ⟨rfl, rfl⟩
